import Mathlib

/-
Verification of the telegram-ai-worker pipeline of the AlgoDenis repository
(`telegram-ai-worker/main.py`, `telegram_listener.py`, `ai.py`).

Modelling conventions:
* Python strings are `List Char`.
* Python / JSON scalar values are `PVal`; dicts are association lists
  `JObj = List (List Char × PVal)`.
* Machine floats are modelled by exact rationals `ℚ`.
* Library calls whose behaviour is external to the repository (json.loads,
  json.dumps, HTTP requests, the OpenAI client, the HTML renderer) are
  oracle parameters of the embedded functions.
* Python exceptions are modelled with `Except`.
-/

set_option maxRecDepth 4000
set_option synthInstance.maxHeartbeats 400000

/-- Python whitespace characters (the ASCII ones recognised by `str.strip`,
`\s` in `re`, and `float`). -/
def pyIsSpace (c : Char) : Bool :=
  c = ' ' || c = '\t' || c = '\n' || c = '\r' || c = '\x0b' || c = '\x0c'

/-- Python `str.strip()`: drop leading and trailing whitespace. -/
def pyStrip (s : List Char) : List Char :=
  ((s.dropWhile pyIsSpace).reverse.dropWhile pyIsSpace).reverse

/-- Python `str.rstrip()`. -/
def pyRStrip (s : List Char) : List Char :=
  (s.reverse.dropWhile pyIsSpace).reverse

/-- A Python/JSON scalar value as it appears in parsed JSON dicts. -/
inductive PVal where
  | num (q : ℚ)
  | str (s : List Char)
  | boolean (b : Bool)
  | null
deriving DecidableEq

/-- A parsed JSON object (Python dict with string keys). -/
abbrev JObj := List (List Char × PVal)

/-- Python `d.get(k)` composed with the convention that both a missing key
and an explicit JSON `null` surface as Python `None` (which is how every
caller in the source treats the result). -/
def dictGet (d : JObj) (k : List Char) : Option PVal :=
  match (d.find? fun p => p.1 = k).map Prod.snd with
  | some .null => none
  | some v => some v
  | none => none

/-- Value of digits in base 10 (`ds` assumed to be decimal digits). -/
def digitsVal (ds : List Char) : Nat :=
  ds.foldl (fun a c => a * 10 + (c.toNat - 48)) 0

/-- Embedding of Python `float(s)` on a string: optional sign, decimal
mantissa, optional exponent, surrounded by optional whitespace.  (The exotic
inputs Python additionally accepts — `inf`, `nan`, digit underscores — do
not occur in this pipeline and are not modelled.) -/
def parsePyFloat (s0 : List Char) : Option ℚ :=
  let s := pyStrip s0
  let sg := match s with
    | '-' :: r => (true, r)
    | '+' :: r => (false, r)
    | _ => (false, s)
  let neg := sg.1
  let s1 := sg.2
  let ip := s1.takeWhile Char.isDigit
  let r1 := s1.dropWhile Char.isDigit
  let fr := match r1 with
    | '.' :: rr => (rr.takeWhile Char.isDigit, rr.dropWhile Char.isDigit)
    | _ => (([] : List Char), r1)
  let fp := fr.1
  let r2 := fr.2
  if ip = [] ∧ fp = [] then none
  else
    let mant : ℚ := (digitsVal ip : ℚ) + (digitsVal fp : ℚ) / ((10 : ℚ) ^ fp.length)
    let signed := if neg then -mant else mant
    match r2 with
    | [] => some signed
    | c :: rr =>
      if c = 'e' ∨ c = 'E' then
        let eg := match rr with
          | '-' :: r => (true, r)
          | '+' :: r => (false, r)
          | _ => (false, rr)
        let ed := eg.2.takeWhile Char.isDigit
        let rr2 := eg.2.dropWhile Char.isDigit
        if ed = [] ∨ rr2 ≠ [] then none
        else some (if eg.1 then signed / (10 : ℚ) ^ digitsVal ed
                   else signed * (10 : ℚ) ^ digitsVal ed)
      else none

/-- Embedding of Python `float(x)` applied to a parsed JSON value
(`main.py`, `calcPresentGoodRate`): numbers pass through, booleans coerce
to 0/1, numeric strings are parsed, everything else raises
(`TypeError`/`ValueError`), modelled as `none`. -/
def pyFloat : PVal → Option ℚ
  | .num q => some q
  | .boolean b => some (if b then 1 else 0)
  | .str s => parsePyFloat s
  | .null => none

/-- Embedding of `_to_float_or_none` (`main.py` lines 114–121):
`None → None`, otherwise `float(str(x).strip())` with exceptions mapped to
`None`.  Note `str(True) = "True"` and `str(None) = "None"` do not parse. -/
def toFloatOrNone : Option PVal → Option ℚ
  | none => none
  | some (.num q) => some q
  | some (.str s) => parsePyFloat s
  | some (.boolean _) => none
  | some .null => none

/-- Round-half-to-even to an integer, the rounding mode of Python float
formatting (`f"{v:.4f}"`). -/
def roundHalfEven (q : ℚ) : ℤ :=
  if q - ⌊q⌋ < 1 / 2 then ⌊q⌋
  else if 1 / 2 < q - ⌊q⌋ then ⌊q⌋ + 1
  else if Even (⌊q⌋) then ⌊q⌋ else ⌊q⌋ + 1

/-- Embedding of `r = lambda v: float(f"{v:.4f}")` (`main.py` line 130):
round to 4 decimal places. -/
def round4 (q : ℚ) : ℚ := (roundHalfEven (q * 10000) : ℚ) / 10000

/-- The trade plan dict built by `orderList` (`main.py` lines 123–135). -/
structure OrderPlan where
  ENTRY_PRICE : ℚ
  STOP_LOSS : ℚ
  TAKE_PROFIT : ℚ
deriving DecidableEq

/-- Embedding of `orderList(last_rate_raw)` (`main.py` lines 123–135). -/
def orderList (lastRateRaw : Option PVal) : Option OrderPlan :=
  match toFloatOrNone lastRateRaw with
  | none => none
  | some lastRate =>
    some { ENTRY_PRICE := round4 lastRate
           STOP_LOSS := round4 (lastRate * (9 / 10))
           TAKE_PROFIT := round4 (lastRate * 2) }

/-- Numeric value a Python comparison `x <= y` can use: floats compare with
floats and with booleans (which are ints); comparing with `str`/`None`
raises `TypeError`. -/
def pyNumVal : PVal → Option ℚ
  | .num q => some q
  | .boolean b => some (if b then 1 else 0)
  | _ => none

/-- Embedding of the chained comparison `lo <= d <= hi` of `main.py`
lines 180–181, with Python's short-circuit: `hi` is only inspected when
`lo <= d` holds; a non-numeric operand raises `TypeError` (`.error`). -/
def pyChainLE (lo : PVal) (d : ℚ) (hi : PVal) : Except Unit Bool :=
  match pyNumVal lo with
  | none => .error ()
  | some a =>
    if a ≤ d then
      match pyNumVal hi with
      | none => .error ()
      | some b => .ok (decide (d ≤ b))
    else .ok false

/-- Embedding of `calcPresentGoodRate(ai_json)` (`main.py` lines 138–184).
`settings` is the result of reading `../db/settings.json` (`none` models a
failed read, which the source catches and turns into `False`); `ai_json` is
the verdict dict (`none` models Python `None`; the empty dict is falsy). -/
def calcPresentGoodRate (settings ai_json : Option JObj) : Except Unit Bool :=
  match ai_json with
  | none => .ok false
  | some lst =>
    if lst = [] then .ok false
    else
      match settings with
      | none => .ok false
      | some data =>
        match (dictGet lst "prob_up".data).bind pyFloat,
              (dictGet lst "prob_down".data).bind pyFloat,
              (dictGet lst "prob_stable".data).bind pyFloat with
        | some up, some dn, some st =>
          match dictGet data "min1".data, dictGet data "max1".data,
                dictGet data "min2".data, dictGet data "max2".data with
          | some m1, some M1, some m2, some M2 =>
            match pyChainLE m1 (up - dn) M1 with
            | .error e => .error e
            | .ok c1 =>
              match pyChainLE m2 (up - st) M2 with
              | .error e => .error e
              | .ok c2 => .ok (c1 && c2)
          | _, _, _, _ => .ok false
        | _, _, _ => .ok false

/-- The decision condition of the spec: all three probabilities convert to
numbers, all four thresholds are present and numeric, and both interval
conditions hold. -/
def GoodRateCore (data lst : JObj) : Prop :=
  ∃ up dn st q1 Q1 q2 Q2 : ℚ,
    (dictGet lst "prob_up".data).bind pyFloat = some up ∧
    (dictGet lst "prob_down".data).bind pyFloat = some dn ∧
    (dictGet lst "prob_stable".data).bind pyFloat = some st ∧
    (dictGet data "min1".data).bind pyNumVal = some q1 ∧
    (dictGet data "max1".data).bind pyNumVal = some Q1 ∧
    (dictGet data "min2".data).bind pyNumVal = some q2 ∧
    (dictGet data "max2".data).bind pyNumVal = some Q2 ∧
    q1 ≤ up - dn ∧ up - dn ≤ Q1 ∧ q2 ≤ up - st ∧ up - st ≤ Q2

/-- The full actionability condition: a readable settings file, a non-empty
verdict dict, and `GoodRateCore`. -/
def GoodRateSpec (settings ai_json : Option JObj) : Prop :=
  ∃ data lst, settings = some data ∧ ai_json = some lst ∧ lst ≠ [] ∧
    GoodRateCore data lst

/-- Example thresholds of the spec: `min1=10, max1=40, min2=5, max2=30`. -/
def exThresholds : JObj :=
  [("min1".data, .num 10), ("max1".data, .num 40),
   ("min2".data, .num 5), ("max2".data, .num 30)]

/-- Example verdict `(prob_up=60, prob_down=30, prob_stable=40)`. -/
def exVerdictGood : JObj :=
  [("prob_up".data, .num 60), ("prob_down".data, .num 30),
   ("prob_stable".data, .num 40)]

/-- Same verdict with `prob_stable = 10` (`up - stable = 50`, out of range). -/
def exVerdictBad : JObj :=
  [("prob_up".data, .num 60), ("prob_down".data, .num 30),
   ("prob_stable".data, .num 10)]

/- ===== String scanning primitives (regex / str methods of the source) ===== -/

/-- The opening-brace character. -/
def lbrace : Char := '{'

/-- The closing-brace character. -/
def rbrace : Char := '}'

/-- A single-quote character. -/
def squot : Char := '\''

/-- A double-quote character. -/
def dq : Char := '"'

/-- The two-character Python literal `\\'` (backslash, quote). -/
def bsq : List Char := ['\\', squot]

/-- The guard character `"￿"` used by the normalisation passes. -/
def guardChar : Char := Char.ofNat 0xFFFF

/-- First index (if any) at which `pat` occurs as a substring (Python
`str.find`). -/
def findSubFrom (pat : List Char) : List Char → Option Nat
  | [] => if pat = [] then some 0 else none
  | c :: rest =>
    if pat.isPrefixOf (c :: rest) then some 0
    else (findSubFrom pat rest).map (· + 1)

/-- First index `≥ i` at which `pat` occurs in `s`. -/
def findSubGe (pat s : List Char) (i : Nat) : Option Nat :=
  (findSubFrom pat (s.drop i)).map (· + i)

/-- Python slicing `s[a:b]` (indices clamp). -/
def pySlice (s : List Char) (a b : Nat) : List Char :=
  (s.drop a).take (b - a)

/-- Case-insensitive "is a prefix of" (for the `re.IGNORECASE` literals). -/
def ciIsPre : List Char → List Char → Bool
  | [], _ => true
  | _ :: _, [] => false
  | p :: ps, c :: cs => (p.toLower = c.toLower) && ciIsPre ps cs

/-- Helper of `pyReplace`: `skip` counts characters still to drop because
they belong to an already-replaced occurrence (keeps the recursion
structural). -/
def pyReplaceAux (pat rep : List Char) : List Char → Nat → List Char
  | [], _ => []
  | _ :: rest, skip + 1 => pyReplaceAux pat rep rest skip
  | c :: rest, 0 =>
    if pat.isPrefixOf (c :: rest) then
      rep ++ pyReplaceAux pat rep rest (pat.length - 1)
    else c :: pyReplaceAux pat rep rest 0

/-- Python `str.replace(pat, rep)`: left-to-right, non-overlapping; all
patterns used by the source are non-empty. -/
def pyReplace (pat rep s : List Char) : List Char := pyReplaceAux pat rep s 0

/- ===== Response parser (`main.py` lines 32–110) ===== -/

/-- The fence token of `_CODE_FENCE_RE`. -/
def fenceL : List Char := "```".data

/-- Embedding of `_CODE_FENCE_RE.search` for the pattern
```(\s*json)?\s*([\s\S]*?)``` (IGNORECASE): returns
`(m.start, m.end, group 2)`.  The match starts at the first fence that has a
closing fence after it; the optional ` json ` tag is consumed greedily when
it leads to a match; group 2 extends lazily to the next fence.  (The
whitespace split between the `\s*` atoms and group 2 is irrelevant because
the caller strips the group.) -/
def codeFenceSearch (s : List Char) : Option (Nat × Nat × List Char) :=
  match findSubFrom fenceL s with
  | none => none
  | some p =>
    match findSubGe fenceL s (p + 3) with
    | none => none
    | some _ =>
      let q0 := p + 3
      let q1 := q0 + ((s.drop q0).takeWhile pyIsSpace).length
      if ciIsPre "json".data (s.drop q1) then
        match findSubGe fenceL s (q1 + 4) with
        | some j => some (p, j + 3, pySlice s (q1 + 4) j)
        | none =>
          match findSubGe fenceL s q0 with
          | some j => some (p, j + 3, pySlice s q0 j)
          | none => none
      else
        match findSubGe fenceL s q0 with
        | some j => some (p, j + 3, pySlice s q0 j)
        | none => none

/-- Depth-counting scan of `_find_balanced_braces_block` (from the first
`{` at absolute index `i`, with running `depth`); returns the exclusive end
index. -/
def bracesLoop : List Char → Nat → Nat → Option Nat
  | [], _, _ => none
  | c :: rest, i, depth =>
    if c = lbrace then bracesLoop rest (i + 1) (depth + 1)
    else if c = rbrace then
      if depth = 1 then some (i + 1)
      else bracesLoop rest (i + 1) (depth - 1)
    else bracesLoop rest (i + 1) depth

/-- Embedding of `_find_balanced_braces_block` (`main.py` lines 35–48);
`none` models the `(-1, -1)` result. -/
def findBalancedBracesBlock (s : List Char) : Option (Nat × Nat) :=
  match findSubFrom [lbrace] s with
  | none => none
  | some st =>
    match bracesLoop (s.drop st) st 0 with
    | some e => some (st, e)
    | none => none

/-- Embedding of `_normalize_maybe_python_dict_to_json` (`main.py`
lines 51–61). -/
def normalizeMaybePythonDictToJson (raw : List Char) : List Char :=
  let g := [guardChar]
  let r1 := pyReplace bsq g raw
  let n := pyReplace [squot] [dq] r1
  let n := pyReplace (' ' :: "None".data) (' ' :: "null".data) n
  let n := pyReplace (':' :: ' ' :: "None".data) (':' :: ' ' :: "null".data) n
  let n := pyReplace (' ' :: "True".data) (' ' :: "true".data) n
  let n := pyReplace (':' :: ' ' :: "True".data) (':' :: ' ' :: "true".data) n
  let n := pyReplace (' ' :: "False".data) (' ' :: "false".data) n
  let n := pyReplace (':' :: ' ' :: "False".data) (':' :: ' ' :: "false".data) n
  pyReplace g bsq n

/-- The parse-then-normalise-and-retry of `extract_json_from_text`
(`json.loads` is the oracle `parse`). -/
def tryParse (parse : List Char → Option JObj) (raw : List Char) : Option JObj :=
  match parse raw with
  | some o => some o
  | none => parse (normalizeMaybePythonDictToJson raw)

/-- The balanced-braces stage of `extract_json_from_text` (`main.py`
lines 93–110). -/
def bracesStage (parse : List Char → Option JObj) (text : List Char)
    (remove : Bool) : List Char × Option JObj × Option (List Char) :=
  match findBalancedBracesBlock text with
  | some (s, e) =>
    ((if remove then pyStrip (text.take s ++ text.drop e) else text),
     tryParse parse (pyStrip (pySlice text s e)), some (pyStrip (pySlice text s e)))
  | none => (text, none, none)

/-- Embedding of `extract_json_from_text` (`main.py` lines 64–110). -/
def extract_json_from_text (parse : List Char → Option JObj)
    (full_text : List Char) (remove_from_text : Bool) :
    List Char × Option JObj × Option (List Char) :=
  if full_text = [] then (full_text, none, none)
  else
    match codeFenceSearch full_text with
    | some (ms, me, g2) =>
      if pyStrip g2 = [] then bracesStage parse full_text remove_from_text
      else
        ((if remove_from_text then
            pyStrip (full_text.take ms ++ full_text.drop me)
          else full_text),
         tryParse parse (pyStrip g2), some (pyStrip g2))
    | none => bracesStage parse full_text remove_from_text

/- ===== Inline "JSON" extractor (`telegram_listener.py` lines 77–117) ===== -/

/-- Embedding of `_PYDICT_BLOCK_RE.search` for the non-greedy pattern
`\{[\s\S]*?\}`: the match runs from the first `{` to the first `}` after
it. -/
def pydictSearch (s : List Char) : Option (Nat × Nat) :=
  match findSubFrom [lbrace] s with
  | none => none
  | some i =>
    match findSubGe [rbrace] s (i + 1) with
    | some j => some (i, j + 1)
    | none => none

/-- The normalisation chain of `extract_inline_pyjson` (`telegram_listener.py`
lines 95–104). -/
def normalizeInlinePy (raw : List Char) : List Char :=
  let g := [guardChar]
  let n := pyReplace bsq g raw
  let n := pyReplace [squot] [dq] n
  let n := pyReplace g bsq n
  let n := pyReplace (':' :: ' ' :: "None".data) (':' :: ' ' :: "null".data) n
  let n := pyReplace (':' :: ' ' :: ' ' :: "None".data) (':' :: ' ' :: "null".data) n
  let n := pyReplace (' ' :: "None,".data) (' ' :: "null,".data) n
  let n := pyReplace (' ' :: "True".data) (' ' :: "true".data) n
  pyReplace (' ' :: "False".data) (' ' :: "false".data) n

/-- Embedding of `extract_inline_pyjson` (`telegram_listener.py`
lines 81–117); `parse` is the `json.loads` oracle. -/
def extract_inline_pyjson (parse : List Char → Option JObj)
    (full_text : List Char) (remove_from_text : Bool) :
    List Char × Option JObj × Option (List Char) :=
  if full_text = [] then (full_text, none, none)
  else
    match pydictSearch full_text with
    | none => (full_text, none, none)
    | some (s, e) =>
      ((if remove_from_text then pyStrip (full_text.take s ++ full_text.drop e)
        else full_text),
       parse (normalizeInlinePy (pyStrip (pySlice full_text s e))),
       some (pyStrip (pySlice full_text s e)))

/-- Character of `s` at index `k` (Python `s[k]`, out of range → `none`). -/
def charAt (s : List Char) (k : Nat) : Option Char := (s.drop k).head?

/-- A `json.loads` oracle that fails on every input.  It agrees with real
`json.loads` on every candidate block fed to it in the concrete theorems
below (those blocks are brace-unbalanced, hence invalid JSON both before
and after normalisation). -/
def parseNone : List Char → Option JObj := fun _ => none

/-- A GPT answer whose fenced block body `\x7bbad` is not parseable JSON. -/
def exC2 : List Char := "hello ```json \x7bbad``` world".data

/-- A post text with a nested inline dict
`x \x7b"a": \x7b"b": 1\x7d\x7d y`. -/
def exC3 : List Char := "x \x7b\"a\": \x7b\"b\": 1\x7d\x7d y".data

/- ===== Matrix parsing (`telegram_listener.py` lines 120–182) ===== -/

/-- `str.rfind(pat)`: highest index at which `pat` occurs. -/
def rfindSub (pat s : List Char) : Option Nat :=
  ((List.range (s.length + 1)).filter
    (fun i => pat.isPrefixOf (s.drop i))).getLast?

/-- `str.rfind(pat, 0, bound)`: highest occurrence fitting inside
`s[0:bound]`. -/
def rfindSubBefore (pat s : List Char) (bound : Nat) : Option Nat :=
  ((List.range (s.length + 1)).filter
    (fun i => decide (i + pat.length ≤ bound) && pat.isPrefixOf (s.drop i))).getLast?

/-- Helper of `pySplitLines`: accumulates the current line reversed. -/
def splitLinesAux : List Char → List Char → List (List Char)
  | [], cur => [cur.reverse]
  | c :: rest, cur =>
    if c = '\n' then cur.reverse :: splitLinesAux rest []
    else splitLinesAux rest (c :: cur)

/-- Python `str.splitlines()` restricted to `\n` separators; callers in the
source always apply it after `rstrip`, so there is no trailing newline. -/
def pySplitLines (s : List Char) : List (List Char) :=
  match s with
  | [] => []
  | _ => splitLinesAux s []

/-- Python `"\n".join(lines)`. -/
def joinNL : List (List Char) → List Char
  | [] => []
  | [x] => x
  | x :: y :: rest => x ++ '\n' :: joinNL (y :: rest)

/-- Determinised matcher for `_ARRAY_ROW_RE`
(`^\s*\[\s*NUM\s*(?:,\s*NUM\s*)+\]\s*$` with
`NUM = -?\d+(\.\d+)?([eE][+-]?\d+)?`), one character at a time.
States: 0 leading ws before `[`; 1 ws/number start (after `[` or `,`);
2 after `-`; 3 integer digits; 4 after `.`; 5 fraction digits; 6 after
`e`/`E`; 7 after exponent sign; 8 exponent digits; 9 ws after a number.
`n` counts the commas consumed; acceptance at `]` needs `n ≥ 1` (at least
two numbers) and only whitespace after it.  A `.`/`e` not followed by a
digit makes the regex backtrack and then fail on the leftover `.`/`e`, so
rejecting there is equivalent. -/
def rowStep : Nat → Nat → List Char → Bool
  | _, _, [] => false
  | 0, n, c :: r =>
    if pyIsSpace c then rowStep 0 n r
    else if c = '[' then rowStep 1 n r else false
  | 1, n, c :: r =>
    if pyIsSpace c then rowStep 1 n r
    else if c = '-' then rowStep 2 n r
    else if c.isDigit then rowStep 3 n r else false
  | 2, n, c :: r => if c.isDigit then rowStep 3 n r else false
  | 3, n, c :: r =>
    if c.isDigit then rowStep 3 n r
    else if c = '.' then rowStep 4 n r
    else if c = 'e' ∨ c = 'E' then rowStep 6 n r
    else if pyIsSpace c then rowStep 9 n r
    else if c = ',' then rowStep 1 (n + 1) r
    else if c = ']' then decide (1 ≤ n) && r.all pyIsSpace else false
  | 4, n, c :: r => if c.isDigit then rowStep 5 n r else false
  | 5, n, c :: r =>
    if c.isDigit then rowStep 5 n r
    else if c = 'e' ∨ c = 'E' then rowStep 6 n r
    else if pyIsSpace c then rowStep 9 n r
    else if c = ',' then rowStep 1 (n + 1) r
    else if c = ']' then decide (1 ≤ n) && r.all pyIsSpace else false
  | 6, n, c :: r =>
    if c = '+' ∨ c = '-' then rowStep 7 n r
    else if c.isDigit then rowStep 8 n r else false
  | 7, n, c :: r => if c.isDigit then rowStep 8 n r else false
  | 8, n, c :: r =>
    if c.isDigit then rowStep 8 n r
    else if pyIsSpace c then rowStep 9 n r
    else if c = ',' then rowStep 1 (n + 1) r
    else if c = ']' then decide (1 ≤ n) && r.all pyIsSpace else false
  | 9, n, c :: r =>
    if pyIsSpace c then rowStep 9 n r
    else if c = ',' then rowStep 1 (n + 1) r
    else if c = ']' then decide (1 ≤ n) && r.all pyIsSpace else false
  | _, _, _ :: _ => false

/-- `_ARRAY_ROW_RE.match(line)` as a Bool. -/
def arrayRowMatch (line : List Char) : Bool := rowStep 0 0 line

/-- Embedding of `_extract_trailing_bracket_matrix` (`telegram_listener.py`
lines 126–135): the maximal trailing run of matrix rows; `none` models the
`(-1, "")` result. -/
def extractTrailingBracketMatrix (lines : List (List Char)) :
    Option (Nat × List Char) :=
  let run := lines.reverse.takeWhile arrayRowMatch
  if 2 ≤ run.length then
    some (lines.length - run.length, pyStrip (joinNL run.reverse))
  else none

/-- Embedding of `_extract_trailing_fenced_block` (`telegram_listener.py`
lines 138–157); `none` models `(-1, -1, "")`.  Note that the source computes
`closing = text.rfind(fence)`, the same value as `last_fence`, so the
`closing == last_fence` guard always fires. -/
def extractTrailingFencedBlock (text : List Char) : Option (Nat × Nat × List Char) :=
  match rfindSub fenceL text with
  | none => none
  | some lastFence =>
    match rfindSub fenceL text with
    | none => none
    | some closing =>
      if closing = lastFence then none
      else if pyStrip (text.drop (closing + 3)) ≠ [] then none
      else
        match rfindSubBefore fenceL text closing with
        | none => none
        | some opening =>
          let header := (pySlice text opening (opening + 10)).map Char.toLower
          if ¬ (fenceL.isPrefixOf header) then none
          else
            let code := pyStrip (pySlice text (opening + 3) closing)
            if code = [] then none
            else some (opening, closing + 3, code)

/-- First index at which `pat` occurs case-insensitively. -/
def ciFindFrom (pat : List Char) : List Char → Option Nat
  | [] => if pat = [] then some 0 else none
  | c :: rest =>
    if ciIsPre pat (c :: rest) then some 0
    else (ciFindFrom pat rest).map (· + 1)

/-- Highest index of a case-insensitive `[/MATRIX]` that is followed only by
whitespace (the `\[/MATRIX\]\s*$` part of the tag regex, with the greedy
`([\s\S]+)` choosing the last such closing tag). -/
def lastValidClose (s : List Char) : Option Nat :=
  ((List.range (s.length + 1)).filter
    (fun j => ciIsPre "[/MATRIX]".data (s.drop j) &&
      decide (pyStrip (s.drop (j + 9)) = []))).getLast?

/-- Embedding of `re.search(r"\[MATRIX\]([\s\S]+)\[/MATRIX\]\s*$", raw,
re.IGNORECASE)`: returns `(match start, group 1)`. -/
def matrixTagSearch (s : List Char) : Option (Nat × List Char) :=
  match ciFindFrom "[MATRIX]".data s with
  | none => none
  | some i =>
    match lastValidClose s with
    | none => none
    | some j => if i + 9 ≤ j then some (i, pySlice s (i + 8) j) else none

/-- The character-cap rule: text longer than `maxChars` is truncated with a
marker. -/
def truncCap (m : List Char) (maxChars : Nat) : List Char :=
  if m.length ≤ maxChars then m
  else m.take maxChars ++ ('\n' :: "...[truncated]...".data)

/-- Embedding of `_split_text_and_trailing_matrix` (`telegram_listener.py`
lines 160–182). -/
def splitTextAndTrailingMatrix (text : List Char) (maxChars : Nat := 12000) :
    List Char × List Char :=
  let raw := pyRStrip text
  let lines := pySplitLines raw
  match extractTrailingBracketMatrix lines with
  | some (startIdx, mat) =>
    (pyRStrip (joinNL (lines.take startIdx)), truncCap mat maxChars)
  | none =>
    match extractTrailingFencedBlock raw with
    | some (s0, _e, code) => (pyRStrip (raw.take s0), truncCap code maxChars)
    | none =>
      match matrixTagSearch raw with
      | some (ts, inner) => (pyRStrip (raw.take ts), truncCap (pyStrip inner) maxChars)
      | none => (raw, [])

/-- A post whose only trailing content is a fenced block, and which does not
end in bracketed numeric rows (C4's shape). -/
def exC4 : List Char := "Q\n```\npayload body\n```".data

/- ===== URL extraction (`telegram_listener.py` lines 26–55, 276–299) ===== -/

/-- A Telegram message entity as used by `_extract_urls`: a direct `url`
span, a `text_link` with an optional target URL (`ent.url`), or any other
entity type. -/
inductive TgEntity where
  | url (offset length : Nat)
  | textLink (offset length : Nat) (target : Option (List Char))
  | other
deriving DecidableEq

/-- Cleaning of a direct-URL slice: `raw.strip().replace("\n", "")`, then
repair of the dropped scheme byte (`"ttps://..." → "https://..."`). -/
def cleanUrl (raw : List Char) : List Char :=
  let c := pyReplace ['\n'] [] (pyStrip raw)
  if "ttps://".data.isPrefixOf c then 'h' :: c else c

/-- The per-entity URL collection loop of `_extract_urls` (before
de-duplication): direct `url` entities are sliced from the text and cleaned;
`text_link` entities contribute their target URL
(`ent.url.strip().replace("\n", "")`); other entities contribute nothing. -/
def collectUrls (text : List Char) (ents : List TgEntity) : List (List Char) :=
  (ents.map fun e =>
    match e with
    | .url off len => [cleanUrl (pySlice text off (off + len))]
    | .textLink _ _ (some u) => [pyReplace ['\n'] [] (pyStrip u)]
    | _ => []).flatten

/-- The first-seen-order de-duplication loop of `_extract_urls` (`seen` set
plus `uniq` list). -/
def dedupAux (seen : List (List Char)) : List (List Char) → List (List Char)
  | [] => []
  | u :: rest =>
    if u ∈ seen then dedupAux seen rest
    else u :: dedupAux (u :: seen) rest

/-- First-seen-order, exact-duplicate-free list. -/
def dedupFirstSeen (l : List (List Char)) : List (List Char) := dedupAux [] l

/-- Embedding of `_extract_urls(message_text, entities)`
(`telegram_listener.py` lines 26–55). -/
def extract_urls (text : List Char) (ents : List TgEntity) : List (List Char) :=
  if ents = [] then [] else dedupFirstSeen (collectUrls text ents)

/-- Concrete post text with a repairable URL, a duplicate, and a second
URL. -/
def exC5text : List Char := "ttps://a ttps://a https://b".data

/-- Entities of `exC5text`: three direct URL spans. -/
def exC5ents : List TgEntity :=
  [TgEntity.url 0 8, TgEntity.url 9 8, TgEntity.url 18 9]

/- ===== Dispatcher (`telegram_listener.py` 380–476, `main.py` 188–314) ===== -/

/-- One Telegram `send_message` call: destination chat, text, and the
attached interactive controls (the reply markup; `send_message` without
`reply_markup` attaches none). -/
structure OutMsg where
  chatId : Int
  text : List Char
  controls : List (List Char)
deriving DecidableEq

/-- The anchor line `"תשובה מ-AI:"` of `_extract_ai_fields_from_text`. -/
def aiAnswerAnchorL : List Char := "תשובה מ-AI:".data

/-- Label `"שם החברה:"`. -/
def companyLbl : List Char := "שם החברה:".data

/-- TASE-symbol label variants of `_extract_ai_fields_from_text`. -/
def taseLbl1 : List Char := "סימבול ת״א:".data

/-- Second TASE variant. -/
def taseLbl2 : List Char := "סימבול תא:".data

/-- Third TASE variant (ASCII quote). -/
def taseLbl3 : List Char := "סימבול ת\"א:".data

/-- US-symbol label variants. -/
def usLbl1 : List Char := "סימבול ארה״ב:".data

/-- Second US variant. -/
def usLbl2 : List Char := "סימבול ארהב:".data

/-- Third US variant (ASCII quote). -/
def usLbl3 : List Char := "סימבול ארה\"ב:".data

/-- `s.split(":", 1)[1].strip() or None` for a line that starts with one of
the labels (each label contains the line's first `:`). -/
def stripAfterColon (s : List Char) : Option (List Char) :=
  match findSubFrom [':'] s with
  | none => none
  | some i =>
    let v := pyStrip (s.drop (i + 1))
    if v = [] then none else some v

/-- The line loop of `_extract_ai_fields_from_text` (`telegram_listener.py`
lines 207–229): `elif`-exclusive label matching, reassignment on repeated
labels, early break once all three fields are set. -/
def aiFieldsLoop : List (List Char) → Option (List Char) → Option (List Char) →
    Option (List Char) →
    Option (List Char) × Option (List Char) × Option (List Char)
  | [], c, t, u => (c, t, u)
  | line :: rest, c, t, u =>
    let s := pyStrip line
    if s = [] then aiFieldsLoop rest c t u
    else
      let next :=
        if companyLbl.isPrefixOf s then (stripAfterColon s, t, u)
        else if taseLbl1.isPrefixOf s || taseLbl2.isPrefixOf s ||
            taseLbl3.isPrefixOf s then (c, stripAfterColon s, u)
        else if usLbl1.isPrefixOf s || usLbl2.isPrefixOf s ||
            usLbl3.isPrefixOf s then (c, t, stripAfterColon s)
        else (c, t, u)
      if next.1.isSome && next.2.1.isSome && next.2.2.isSome then next
      else aiFieldsLoop rest next.1 next.2.1 next.2.2

/-- Embedding of `_extract_ai_fields_from_text` (`telegram_listener.py`
lines 186–230): `(company, tase_symbol, us_symbol)`. -/
def extractAiFieldsFromText (text : List Char) :
    Option (List Char) × Option (List Char) × Option (List Char) :=
  if text = [] then (none, none, none)
  else
    match findSubFrom aiAnswerAnchorL text with
    | none => (none, none, none)
    | some idx =>
      let after := pyStrip (text.drop (idx + aiAnswerAnchorL.length))
      aiFieldsLoop (pySplitLines after) none none none

/-- Embedding of `TelegramMessenger.send_text_with_button`
(`telegram_listener.py` lines 387–476) as the list of messages it sends:
the full text always goes to the target group with no controls
("ללא כפתורים"); when `bool(flag)` holds and a users group is configured, a
condensed extra message is additionally sent there (also without controls),
unless it would be empty.  `showNum` renders a float into an f-string
(external formatting).  The `inline_json`/`ai_json` parameters are received
but unused, as in the source.  `sendExtraMsgs` is step 2 of the function
(the conditional condensed message to `UsersGroupChat`). -/
def sendExtraMsgs (usersGroupChat : Int) (showNum : ℚ → List Char)
    (text : List Char) (orderRate : Option OrderPlan) (flag : Option Bool) :
    List OutMsg :=
  let isTrueFlag := flag.getD false
  if isTrueFlag = true ∧ usersGroupChat ≠ 0 then
    let f := extractAiFieldsFromText text
    let ls : List (List Char) :=
      (match f.1 with
       | some comp => ["שם החברה: ".data ++ comp]
       | none => []) ++
      (match f.2.1 with
       | some t => ["סימבול ת״א: ".data ++ t]
       | none => []) ++
      (match f.2.2 with
       | some u => ["סימבול ארה״ב: ".data ++ u]
       | none => []) ++
      (match orderRate with
       | some p =>
         [[], "פרטי עסקה):".data,
          "מחיר כניסה: ".data ++ showNum p.ENTRY_PRICE,
          "סטופ לוס: ".data ++ showNum p.STOP_LOSS,
          "טייק פרופיט: ".data ++ showNum p.TAKE_PROFIT]
       | none => [])
    if ls = [] then []
    else [⟨usersGroupChat, joinNL ls, []⟩]
  else []

/-- Step 1 (the unconditional primary send, without buttons) followed by
step 2: the full message list `send_text_with_button` produces. -/
def send_text_with_button (targetGroupId usersGroupChat : Int)
    (showNum : ℚ → List Char) (text : List Char) (orderRate : Option OrderPlan)
    (flag : Option Bool) (_inline_json _ai_json : Option JObj) : List OutMsg :=
  ⟨targetGroupId, text, []⟩ ::
    sendExtraMsgs usersGroupChat showNum text orderRate flag

/-- Python truthiness of an optional dict: `None` and `{}` are falsy. -/
def jTruthy : Option JObj → Bool
  | some (_ :: _) => true
  | _ => false

/-- The `orderRate` dict as a JSON object (for `json.dumps(orderRate)`). -/
def orderPlanToObj (p : OrderPlan) : JObj :=
  [("ENTRY_PRICE".data, .num p.ENTRY_PRICE),
   ("STOP_LOSS".data, .num p.STOP_LOSS),
   ("TAKE_PROFIT".data, .num p.TAKE_PROFIT)]

/-- Error-branch literals of `process_urls` (`main.py` lines 201–217). -/
def errHeaderL : List Char := "שגיאה בעיבוד הודעה מהטלגרם:".data

/-- The error line of the no-URL branch. -/
def errNoUrlsL : List Char := "No URLs provided from Telegram message.".data

/-- Section label `"מטריצה:"`. -/
def matrixLblL : List Char := "מטריצה:".data

/-- Section label `"JSON:"` of the error branch. -/
def jsonLblL : List Char := "JSON:".data

/-- Section label `"JSON (מקור מהטלגרם):"`. -/
def jsonSrcLblL : List Char := "JSON (מקור מהטלגרם):".data

/-- Section label `"AI JSON (מתוך תשובת GPT):"`. -/
def aiJsonLblL : List Char := "AI JSON (מתוך תשובת GPT):".data

/-- Section label `"פקודת מסחר (מה-Rate המקורי):"`. -/
def orderLblL : List Char := "פקודת מסחר (מה-Rate המקורי):".data

/-- Header `"כותרת ההודעה:"`. -/
def hdrTitleL : List Char := "כותרת ההודעה:".data

/-- Placeholder `"(ללא כותרת)"`. -/
def noTitleL : List Char := "(ללא כותרת)".data

/-- Header `"קישור שצורף:"`. -/
def hdrLinkL : List Char := "קישור שצורף:".data

/-- Placeholder `"(אין קישור)"`. -/
def noLinkL : List Char := "(אין קישור)".data

/-- Opening fence with json tag. -/
def fenceJsonL : List Char := "```json".data

/-- Prefix of the substituted answer when `ask_with_sources` raises. -/
def aiFailedL : List Char := "AI processing failed: ".data

/-- The message parts of the no-URL error branch of `process_urls`
(`main.py` lines 204–216). -/
def errParts (matrix_text : List Char) (inline_json : Option JObj)
    (dumps : JObj → List Char) : List (List Char) :=
  [errHeaderL, errNoUrlsL]
  ++ (if matrix_text ≠ [] then [[], matrixLblL, matrix_text] else [])
  ++ (if jTruthy inline_json then
        [[], jsonLblL, fenceJsonL, dumps (inline_json.getD []), fenceL]
      else [])

/-- The observable outcome of one `process_urls` run: whether the AI
gateway (`ask_with_sources`) was invoked, and the messages sent. -/
structure ProcessResult where
  aiCalled : Bool
  messages : List OutMsg
deriving DecidableEq

/-- Embedding of `process_urls` (`main.py` lines 188–314).
`messengerPresent` models the global `messenger` being set; `askResult` is
the outcome of the `ask_with_sources` thread (`.error e` models a raised
exception with text `e`, turned into the substitute answer); `parse` is the
`json.loads` oracle used by `extract_json_from_text`; `settings` is the
settings-file read used by `calcPresentGoodRate`; `dumps` is the
`json.dumps(..., ensure_ascii=False, indent=2)` oracle; `showNum` renders
floats. -/
def process_urls (messengerPresent : Bool) (targetGroupId usersGroupChat : Int)
    (askResult : Except (List Char) (List Char))
    (parse : List Char → Option JObj) (settings : Option JObj)
    (dumps : JObj → List Char) (showNum : ℚ → List Char)
    (urls : List (List Char))
    (question_text link_text matrix_text : List Char)
    (inline_json : Option JObj) : ProcessResult :=
  if urls = [] then
    { aiCalled := false
      messages :=
        if messengerPresent then
          send_text_with_button targetGroupId usersGroupChat showNum
            (joinNL (errParts matrix_text inline_json dumps)) none none none none
        else [] }
  else
    let answer_text :=
      match askResult with
      | .ok a => a
      | .error e => aiFailedL ++ e
    let ext := extract_json_from_text parse answer_text true
    let answer_wo := ext.1
    let ai_json := ext.2.1
    let flag : Option Bool :=
      match ai_json with
      | none => none
      | some obj =>
        match calcPresentGoodRate settings (some obj) with
        | .ok b => some b
        | .error _ => none
    let orderRate : Option OrderPlan :=
      if jTruthy inline_json then
        orderList (dictGet (inline_json.getD []) "Last Rate".data)
      else none
    let msg_parts : List (List Char) :=
      [hdrTitleL, pyStrip (if question_text = [] then noTitleL else question_text),
       [], hdrLinkL, pyStrip (if link_text = [] then noLinkL else link_text),
       [], aiAnswerAnchorL, pyStrip answer_wo]
      ++ (if matrix_text ≠ [] then
            [[], matrixLblL, fenceL, pyStrip matrix_text, fenceL] else [])
      ++ (if jTruthy inline_json then
            [[], jsonSrcLblL, fenceJsonL, dumps (inline_json.getD []), fenceL]
          else [])
      ++ (if jTruthy ai_json then
            [[], aiJsonLblL, fenceJsonL, dumps (ai_json.getD []), fenceL]
          else [])
      ++ (match orderRate with
          | some p => [[], orderLblL, fenceJsonL, dumps (orderPlanToObj p), fenceL]
          | none => [])
    { aiCalled := true
      messages :=
        if messengerPresent then
          send_text_with_button targetGroupId usersGroupChat showNum
            (joinNL msg_parts) orderRate flag inline_json ai_json
        else [] }

/-- A post text containing exactly one URL. -/
def exC10text : List Char := "look https://x.co".data

/-- The single URL entity of `exC10text`. -/
def exC10ents : List TgEntity := [TgEntity.url 5 12]

/- ===== AI gateway / source resolver (`ai.py`) ===== -/

/-- Python `str.lower()` (ASCII). -/
def lowerL (s : List Char) : List Char := s.map Char.toLower

/-- Python `pat in s` (substring test). -/
def containsSub (pat s : List Char) : Bool := (findSubFrom pat s).isSome

/-- Python `s.endswith(pat)`. -/
def endsWithL (pat s : List Char) : Bool := pat.isSuffixOf s

/-- Embedding of `_is_probably_pdf_by_url` (`ai.py` lines 158–160). -/
def probablyPdf (url ct : List Char) : Bool :=
  endsWithL ".pdf".data (lowerL url) || containsSub "application/pdf".data ct

/-- Embedding of `_is_probably_html_by_url` (`ai.py` lines 154–156). -/
def probablyHtml (url ct : List Char) : Bool :=
  endsWithL ".html".data (lowerL url) || endsWithL ".htm".data (lowerL url) ||
    containsSub "text/html".data ct

/-- One entry of the `content_items` list sent to the completion call: an
uploaded-file reference (`input_file`, by uploaded id) or an inline text
item (`input_text`). -/
inductive ContentItem where
  | file (id : Nat)
  | text (payload : List Char)
deriving DecidableEq

/-- The Python exceptions `ask_with_sources` can raise. -/
inductive PyExc where
  | fileNotFound
  | uploadError
  | readError
  | missingPrompt
  | noContent
  | apiError
deriving DecidableEq

/-- Oracle for the external effects of processing one remote URL:
`headCT` is the `_head_content_type` answer (that helper catches its own
errors and returns `""`); `getResult` is `_download_bytes` (`none` models a
raised request error; otherwise decoded body and Content-Type);
`convertResult` is `_convert_html_str_to_pdf_file` (`some id` a produced
PDF, `none` conversion unavailable/failed); `renderedText` is
`_html_to_text`; `uploadResult` is `client.files.create` (`none` models a
raise). -/
structure UrlOracle where
  headCT : List Char
  getResult : Option (List Char × List Char)
  convertResult : Option Nat
  renderedText : List Char
  uploadResult : Option Nat
deriving DecidableEq

/-- Oracle for the filesystem/library effects of one local-path source. -/
structure FileOracle where
  onDisk : Bool
  readOk : Bool
  convertResult : Option Nat
  renderedText : List Char
  rawContent : List Char
  uploadResult : Option Nat
deriving DecidableEq

/-- The `max_inline_chars` truncation of inline text (`ai.py`). -/
def truncateInline (t : List Char) (maxInline : Nat) : List Char :=
  if t.length > maxInline then
    t.take maxInline ++ ('\n' :: "...[truncated]...".data)
  else t

/-- The f-string `[SOURCE: {s}]\n{text}`. -/
def srcTag (addr payload : List Char) : List Char :=
  "[SOURCE: ".data ++ addr ++ (']' :: '\n' :: payload)

/-- The GET-and-decide fallback path of `ask_with_sources` for a URL whose
HEAD probe was inconclusive (`ai.py` lines 206–242): `none` models an
exception escaping the path (caught by its `except`, after which the
HEAD-informed path runs). -/
def getDecidePath (addr : List Char) (o : UrlOracle) (maxInline : Nat) :
    Option (List ContentItem) :=
  match o.getResult with
  | none => none
  | some (data, ct0) =>
    let ct := lowerL ct0
    if probablyPdf addr ct then
      match o.uploadResult with
      | some fid => some [.file fid]
      | none => none
    else if probablyHtml addr ct then
      match o.convertResult with
      | some _ =>
        match o.uploadResult with
        | some fid => some [.file fid]
        | none => none
      | none => some [.text (srcTag addr (truncateInline o.renderedText maxInline))]
    else some [.text (srcTag addr (truncateInline data maxInline))]

/-- The HEAD-informed path of `ask_with_sources` (`ai.py` lines 244–271);
its `try/except` swallows every failure, so it is total and yields the
items it managed to build. -/
def headInformedPath (addr : List Char) (o : UrlOracle) (maxInline : Nat)
    (isPdf isHtml : Bool) : List ContentItem :=
  if isPdf then
    match o.getResult with
    | none => []
    | some _ =>
      match o.uploadResult with
      | some fid => [.file fid]
      | none => []
  else if isHtml then
    match o.getResult with
    | none => []
    | some _ =>
      match o.convertResult with
      | some _ =>
        match o.uploadResult with
        | some fid => [.file fid]
        | none => []
      | none => [.text (srcTag addr (truncateInline o.renderedText maxInline))]
  else []

/-- Processing of one remote-URL source (`ai.py` lines 200–271): never
raises — the GET-decide path's exceptions fall through to the HEAD-informed
path (a no-op when HEAD was inconclusive), and that path catches its own. -/
def processUrlSource (addr : List Char) (o : UrlOracle) (maxInline : Nat) :
    List ContentItem :=
  let ctHead := lowerL o.headCT
  let isPdf := probablyPdf addr ctHead
  let isHtml := probablyHtml addr ctHead
  if ¬ (isPdf || isHtml) = true then
    match getDecidePath addr o maxInline with
    | some items => items
    | none => headInformedPath addr o maxInline isPdf isHtml
  else headInformedPath addr o maxInline isPdf isHtml

/-- Processing of one local-path source (`ai.py` lines 272–323): a missing
file raises `FileNotFoundError`, and every upload/read failure re-raises
(`except ...: raise`), aborting the enclosing call. -/
def processLocalSource (path : List Char) (o : FileOracle) (maxInline : Nat) :
    Except PyExc (List ContentItem) :=
  if ¬ o.onDisk = true then .error .fileNotFound
  else
    let sl := lowerL path
    if endsWithL ".pdf".data sl then
      match o.uploadResult with
      | some fid => .ok [.file fid]
      | none => .error .uploadError
    else if endsWithL ".html".data sl || endsWithL ".htm".data sl then
      match o.convertResult with
      | some _ =>
        match o.uploadResult with
        | some fid => .ok [.file fid]
        | none => .error .uploadError
      | none =>
        if o.readOk then
          .ok [.text (srcTag path (truncateInline o.renderedText maxInline))]
        else .error .readError
    else
      if o.readOk then
        .ok [.text (srcTag path (truncateInline o.rawContent maxInline))]
      else .error .readError

/-- A source given to `ask_with_sources`, pre-classified by `_is_url`
(scheme + netloc check), with the oracle describing its external
behaviour. -/
inductive AskSource where
  | url (addr : List Char) (o : UrlOracle)
  | localFile (path : List Char) (o : FileOracle)
deriving DecidableEq

/-- Whether `_is_url` classified the source as remote. -/
def AskSource.isUrl : AskSource → Bool
  | .url _ _ => true
  | .localFile _ _ => false

/-- One iteration of the source loop of `ask_with_sources`. -/
def processSource (maxInline : Nat) : AskSource → Except PyExc (List ContentItem)
  | .url addr o => .ok (processUrlSource addr o maxInline)
  | .localFile path o => processLocalSource path o maxInline

/-- The source loop of `ask_with_sources` (`ai.py` lines 198–323): items
accumulate in order; a raised exception aborts the remaining sources and
the whole call. -/
def resolveSources (maxInline : Nat) :
    List AskSource → Except PyExc (List ContentItem)
  | [] => .ok []
  | s :: rest =>
    match processSource maxInline s with
    | .error e => .error e
    | .ok items =>
      match resolveSources maxInline rest with
      | .error e => .error e
      | .ok restItems => .ok (items ++ restItems)

/-- Embedding of `ask_with_sources` (`ai.py` lines 165–352).
`systemPrompt`/`question` are the `PROMPT`/`QUESTION` environment values
(the source overwrites its arguments with them); `completion` is the
`client.responses.create` oracle. -/
def ask_with_sources (systemPrompt question : Option (List Char))
    (completion : List ContentItem → Except PyExc (List Char))
    (sources : List AskSource) (maxInline : Nat) : Except PyExc (List Char) :=
  match systemPrompt with
  | none => .error .missingPrompt
  | some p =>
    if p = [] then .error .missingPrompt
    else
      let items0 : List ContentItem :=
        match question with
        | some q => if q = [] then [] else [.text q]
        | none => []
      match resolveSources maxInline sources with
      | .error e => .error e
      | .ok items =>
        let all := items0 ++ items
        if all = [] then .error .noContent
        else completion all

/-- A local source whose path does not exist on disk. -/
def exBadLocal : AskSource :=
  .localFile "missing.pdf".data ⟨false, false, none, [], [], none⟩

/-- A URL source whose HEAD probe says PDF, whose download and upload
succeed. -/
def exGoodUrl : AskSource :=
  .url "https://x".data
    ⟨"application/pdf".data, some ("PDFDATA".data, "application/pdf".data),
     none, [], some 7⟩

/-- A URL source where every network step fails (HEAD returns "", GET
raises). -/
def exFailUrl : AskSource := .url "https://bad".data ⟨[], none, none, [], none⟩

/-- A completion oracle returning a fixed answer. -/
def exCompletion : List ContentItem → Except PyExc (List Char) :=
  fun _ => .ok "ANSWER".data

/- ===== Temp-file lifecycle of the HTML→PDF conversion (`ai.py`) ===== -/

/-- The temp files one `_convert_html_str_to_pdf_file` call can create:
the pdfkit branch's `mkstemp` output placeholder and intermediate HTML file,
and the WeasyPrint branch's `mkstemp` output placeholder. -/
inductive TempFile where
  | outPdf1
  | htmlTmp
  | outPdf2
deriving DecidableEq

/-- Files created on disk by `_convert_html_str_to_pdf_file` (`ai.py`
lines 108–142), as a function of converter availability/success: the pdfkit
branch creates its output placeholder and the HTML temp; the WeasyPrint
branch (reached unless pdfkit succeeded) creates its output placeholder. -/
def convertCreated (hasPdfkit pdfkitOk hasWeasy : Bool) : List TempFile :=
  (if hasPdfkit then [.outPdf1, .htmlTmp] else [])
  ++ (if (¬ (hasPdfkit ∧ pdfkitOk)) ∧ hasWeasy then [.outPdf2] else [])

/-- Files the function itself removes: only the intermediate HTML, and only
on the pdfkit success path (`os.remove(html_path)`). -/
def convertRemoved (hasPdfkit pdfkitOk : Bool) : List TempFile :=
  if hasPdfkit ∧ pdfkitOk then [.htmlTmp] else []

/-- The returned PDF path (registered by the caller in `temps_to_cleanup`
and therefore deleted by the `finally` block on every exit). -/
def convertResultTemp (hasPdfkit pdfkitOk hasWeasy weasyOk : Bool) :
    Option TempFile :=
  if hasPdfkit ∧ pdfkitOk then some .outPdf1
  else if hasWeasy ∧ weasyOk then some .outPdf2
  else none

/-- Files still on disk after the enclosing `ask_with_sources` call ends:
created, not removed by the conversion function, and not registered for the
`finally` cleanup.  `completionOk` (whether `responses.create` succeeded)
is deliberately unused: the `finally` block runs on both exit modes. -/
def leakedTempFiles (hasPdfkit pdfkitOk hasWeasy weasyOk _completionOk : Bool) :
    List TempFile :=
  (convertCreated hasPdfkit pdfkitOk hasWeasy).filter fun f =>
    decide (f ∉ convertRemoved hasPdfkit pdfkitOk) &&
    decide (convertResultTemp hasPdfkit pdfkitOk hasWeasy weasyOk ≠ some f)

/- ===== Theorems ===== -/

/-- Rounding an integer changes nothing. -/
theorem roundHalfEven_intCast (n : ℤ) : roundHalfEven ((n : ℚ)) = n := by
  unfold roundHalfEven
  rw [Int.floor_intCast]
  norm_num

theorem pyChainLE_ok_true (lo : PVal) (d : ℚ) (hi : PVal) :
    pyChainLE lo d hi = .ok true ↔
      ∃ a b : ℚ, pyNumVal lo = some a ∧ pyNumVal hi = some b ∧ a ≤ d ∧ d ≤ b := by
  unfold pyChainLE
  cases hlo : pyNumVal lo with
  | none => simp
  | some a =>
    by_cases hle : a ≤ d
    · cases hhi : pyNumVal hi with
      | none => simp [hle]
      | some b =>
        simp only [if_pos hle]
        constructor
        · intro h
          refine ⟨a, b, rfl, rfl, hle, ?_⟩
          simpa using h
        · rintro ⟨a', b', ha', hb', _, hdb⟩
          cases ha'; cases hb'
          simpa using hdb
    · simp only [if_neg hle]
      constructor
      · intro h; exact absurd h (by simp)
      · rintro ⟨a', b', ha', _, had, _⟩
        cases ha'
        exact absurd had hle

theorem pyChainLE_num (a d b : ℚ) :
    pyChainLE (PVal.num a) d (PVal.num b) =
      .ok (decide (a ≤ d) && decide (d ≤ b)) := by
  unfold pyChainLE pyNumVal
  by_cases h : a ≤ d
  · simp [h]
  · simp [h]

theorem chainPair_ok_true (m1 M1 m2 M2 : PVal) (d1 d2 : ℚ) :
    (match pyChainLE m1 d1 M1 with
     | .error e => Except.error e
     | .ok c1 =>
       match pyChainLE m2 d2 M2 with
       | .error e => Except.error e
       | .ok c2 => Except.ok (c1 && c2)) = Except.ok true ↔
      pyChainLE m1 d1 M1 = .ok true ∧ pyChainLE m2 d2 M2 = .ok true := by
  cases h1 : pyChainLE m1 d1 M1 with
  | error e => simp
  | ok c1 =>
    cases h2 : pyChainLE m2 d2 M2 with
    | error e => simp
    | ok c2 => cases c1 <;> cases c2 <;> simp

/-- C1: `calcPresentGoodRate` returns `True` iff all three probabilities
convert to numbers, the settings file is readable, all four thresholds are
present, and both interval conditions hold; every missing/unparseable input
yields `False` (fails closed).  The concrete examples of the spec evaluate
as stated. -/
theorem calcPresentGoodRate_actionable_iff :
    (∀ settings ai_json : Option JObj,
        calcPresentGoodRate settings ai_json = .ok true ↔
          GoodRateSpec settings ai_json) ∧
    calcPresentGoodRate (some exThresholds) (some exVerdictGood) = .ok true ∧
    calcPresentGoodRate (some exThresholds) (some exVerdictBad) = .ok false := by
  refine ⟨?_, ?_, ?_⟩
  case refine_2 =>
    have hne : (exVerdictGood = []) = False := by simp [exVerdictGood]
    have hu : (dictGet exVerdictGood "prob_up".data).bind pyFloat = some 60 := rfl
    have hd : (dictGet exVerdictGood "prob_down".data).bind pyFloat = some 30 := rfl
    have hs : (dictGet exVerdictGood "prob_stable".data).bind pyFloat = some 40 := rfl
    have h1 : dictGet exThresholds "min1".data = some (.num 10) := rfl
    have h2 : dictGet exThresholds "max1".data = some (.num 40) := rfl
    have h3 : dictGet exThresholds "min2".data = some (.num 5) := rfl
    have h4 : dictGet exThresholds "max2".data = some (.num 30) := rfl
    simp only [calcPresentGoodRate, hne, if_false, hu, hd, hs, h1, h2, h3, h4,
      pyChainLE_num]
    norm_num
  case refine_3 =>
    have hne : (exVerdictBad = []) = False := by simp [exVerdictBad]
    have hu : (dictGet exVerdictBad "prob_up".data).bind pyFloat = some 60 := rfl
    have hd : (dictGet exVerdictBad "prob_down".data).bind pyFloat = some 30 := rfl
    have hs : (dictGet exVerdictBad "prob_stable".data).bind pyFloat = some 10 := rfl
    have h1 : dictGet exThresholds "min1".data = some (.num 10) := rfl
    have h2 : dictGet exThresholds "max1".data = some (.num 40) := rfl
    have h3 : dictGet exThresholds "min2".data = some (.num 5) := rfl
    have h4 : dictGet exThresholds "max2".data = some (.num 30) := rfl
    simp only [calcPresentGoodRate, hne, if_false, hu, hd, hs, h1, h2, h3, h4,
      pyChainLE_num]
    norm_num
  intro settings ai_json
  cases ai_json with
  | none => simp [calcPresentGoodRate, GoodRateSpec]
  | some lst =>
    by_cases hl : lst = []
    · subst hl
      simp [calcPresentGoodRate, GoodRateSpec]
    · cases settings with
      | none => simp [calcPresentGoodRate, hl, GoodRateSpec]
      | some data =>
        have hspec : GoodRateSpec (some data) (some lst) ↔ GoodRateCore data lst := by
          simp [GoodRateSpec, hl]
        rw [hspec]
        simp only [calcPresentGoodRate, if_neg hl]
        cases hu : (dictGet lst "prob_up".data).bind pyFloat with
        | none => simp [GoodRateCore, hu]
        | some up =>
          cases hd : (dictGet lst "prob_down".data).bind pyFloat with
          | none => simp [GoodRateCore, hu, hd]
          | some dn =>
            cases hs : (dictGet lst "prob_stable".data).bind pyFloat with
            | none => simp [GoodRateCore, hu, hd, hs]
            | some st =>
              cases h1 : dictGet data "min1".data with
              | none => simp [GoodRateCore, hu, hd, hs, h1]
              | some m1 =>
                cases h2 : dictGet data "max1".data with
                | none => simp [GoodRateCore, hu, hd, hs, h1, h2]
                | some M1 =>
                  cases h3 : dictGet data "min2".data with
                  | none => simp [GoodRateCore, hu, hd, hs, h1, h2, h3]
                  | some m2 =>
                    cases h4 : dictGet data "max2".data with
                    | none => simp [GoodRateCore, hu, hd, hs, h1, h2, h3, h4]
                    | some M2 =>
                      rw [chainPair_ok_true, pyChainLE_ok_true, pyChainLE_ok_true]
                      constructor
                      · rintro ⟨⟨a1, b1, ha1, hb1, hle1, hle2⟩,
                                 ⟨a2, b2, ha2, hb2, hle3, hle4⟩⟩
                        exact ⟨up, dn, st, a1, b1, a2, b2, hu, hd, hs,
                          by simp [h1, ha1], by simp [h2, hb1],
                          by simp [h3, ha2], by simp [h4, hb2],
                          hle1, hle2, hle3, hle4⟩
                      · rintro ⟨up', dn', st', q1, Q1, q2, Q2,
                                 hu', hd', hs', hq1, hQ1, hq2, hQ2,
                                 hc1, hc2, hc3, hc4⟩
                        rw [hu] at hu'; rw [hd] at hd'; rw [hs] at hs'
                        cases hu'; cases hd'; cases hs'
                        rw [h1] at hq1; rw [h2] at hQ1
                        rw [h3] at hq2; rw [h4] at hQ2
                        simp only [Option.some_bind] at hq1 hQ1 hq2 hQ2
                        exact ⟨⟨q1, Q1, hq1, hQ1, hc1, hc2⟩,
                               ⟨q2, Q2, hq2, hQ2, hc3, hc4⟩⟩

theorem round4_intLike (q : ℚ) (n : ℤ) (h : q * 10000 = (n : ℚ)) :
    round4 q = (n : ℚ) / 10000 := by
  unfold round4
  rw [h, roundHalfEven_intCast]

/-- C8: the order-plan function: a parsable reference price `p` yields
`entry = p`, `stop_loss = p * 0.9`, `take_profit = p * 2`, each rounded to
4 decimal places; a missing or non-numeric reference price yields no plan;
`p = 100` yields `(100, 90, 200)`. -/
theorem orderList_plan_spec :
    (∀ (x : Option PVal) (p : ℚ), toFloatOrNone x = some p →
        orderList x = some ⟨round4 p, round4 (p * (9 / 10)), round4 (p * 2)⟩) ∧
    (∀ x : Option PVal, toFloatOrNone x = none → orderList x = none) ∧
    orderList (some (PVal.num 100)) =
      some ⟨(100 : ℚ), (90 : ℚ), (200 : ℚ)⟩ := by
  refine ⟨?_, ?_, ?_⟩
  · intro x p h; simp [orderList, h]
  · intro x h; simp [orderList, h]
  · have hf : toFloatOrNone (some (PVal.num 100)) = some 100 := rfl
    have r1 : round4 ((100 : ℚ)) = 100 := by
      rw [round4_intLike _ 1000000 (by norm_num)]; norm_num
    have r2 : round4 ((100 : ℚ) * (9 / 10)) = 90 := by
      rw [round4_intLike _ 900000 (by norm_num)]; norm_num
    have r3 : round4 ((100 : ℚ) * 2) = 200 := by
      rw [round4_intLike _ 2000000 (by norm_num)]; norm_num
    simp only [orderList, hf, r1, r2, r3]

/-- Witness for C8 at the concrete reference price 100. -/
theorem orderList_plan_spec_witness :
    toFloatOrNone (some (PVal.num 100)) = some 100 ∧
    orderList (some (PVal.num 100)) =
      some ⟨round4 100, round4 (100 * (9 / 10)), round4 (100 * 2)⟩ :=
  ⟨rfl, orderList_plan_spec.1 _ _ rfl⟩


/- ===== Substring-search lemmas ===== -/

theorem singleIsPre (c : Char) (l : List Char) :
    ([c].isPrefixOf l) = true ↔ l.head? = some c := by
  cases l with
  | nil =>
    constructor
    · intro h; exact absurd h (by simp [List.isPrefixOf])
    · intro h; cases h
  | cons b bs =>
    constructor
    · intro h
      have h3 : (c == b && ([] : List Char).isPrefixOf bs) = true := h
      rw [Bool.and_eq_true] at h3
      have hcb : c = b := eq_of_beq h3.1
      subst hcb
      rfl
    · intro h
      have hbc : b = c := by injection h
      subst hbc
      show (b == b && ([] : List Char).isPrefixOf bs) = true
      simp [List.isPrefixOf]

theorem findSubFrom_some (pat s : List Char) :
    ∀ i, findSubFrom pat s = some i →
      pat.isPrefixOf (s.drop i) = true ∧
      ∀ k, k < i → pat.isPrefixOf (s.drop k) = false := by
  induction s with
  | nil =>
    intro i h
    by_cases hp : pat = []
    · subst hp
      unfold findSubFrom at h
      rw [if_pos rfl] at h
      cases h
      exact ⟨rfl, fun k hk => absurd hk (by omega)⟩
    · unfold findSubFrom at h
      rw [if_neg hp] at h
      cases h
  | cons c rest ih =>
    intro i h
    unfold findSubFrom at h
    by_cases hp : pat.isPrefixOf (c :: rest) = true
    · rw [if_pos hp] at h
      cases h
      exact ⟨hp, fun k hk => absurd hk (by omega)⟩
    · have hp' : pat.isPrefixOf (c :: rest) = false := by
        cases hx : pat.isPrefixOf (c :: rest)
        · rfl
        · exact absurd hx hp
      rw [if_neg (by simp [hp'])] at h
      obtain ⟨i', hfind, hi⟩ := Option.map_eq_some'.mp h
      subst hi
      obtain ⟨h1, h2⟩ := ih i' hfind
      refine ⟨h1, ?_⟩
      intro k hk
      cases k with
      | zero => exact hp'
      | succ k' => exact h2 k' (by omega)

theorem findSubGe_some (pat s : List Char) (i0 j : Nat)
    (h : findSubGe pat s i0 = some j) :
    i0 ≤ j ∧ pat.isPrefixOf (s.drop j) = true ∧
      ∀ k, i0 ≤ k → k < j → pat.isPrefixOf (s.drop k) = false := by
  unfold findSubGe at h
  obtain ⟨o, ho, hoj⟩ := Option.map_eq_some'.mp h
  obtain ⟨h1, h2⟩ := findSubFrom_some pat (s.drop i0) o ho
  subst hoj
  refine ⟨by omega, ?_, ?_⟩
  · rw [List.drop_drop, Nat.add_comm i0 o] at h1
    exact h1
  · intro k hk1 hk2
    have hlt : k - i0 < o := by omega
    have h3 := h2 (k - i0) hlt
    rw [List.drop_drop] at h3
    have hkk : i0 + (k - i0) = k := by omega
    rw [hkk] at h3
    exact h3

theorem charAt_of_findSub_single (c : Char) (s : List Char) (i : Nat)
    (h : findSubFrom [c] s = some i) : charAt s i = some c :=
  (singleIsPre c (s.drop i)).mp (findSubFrom_some [c] s i h).1

/- ===== C2: extract_json_from_text ===== -/

/-- C2 counterexample: on `exC2` both parse attempts fail (the candidate
block `\x7bbad` is invalid JSON even after normalisation), no verdict is
produced — yet the returned narrative is `"hello  world"`, i.e. the fenced
span has been removed, not the original input text unmodified. -/
theorem extract_json_from_text_cx :
    extract_json_from_text parseNone exC2 true =
      ("hello  world".data, none, some "\x7bbad".data) ∧
    "hello  world".data ≠ exC2 :=
  ⟨by decide, by decide⟩

/-- C2 (amended): when no candidate span exists (no fenced block with a
non-empty stripped body and no balanced-brace block), the original text is
returned unmodified with no verdict; the fenced strategy is tried first and,
if it finds a non-empty body, commits to it — removing the span — whether or
not parsing (with the normalisation retry) succeeds; only otherwise is the
balanced-brace strategy used, which likewise commits to its span
independently of parse success. -/
theorem extract_json_from_text_strategy_spec :
    ∀ (parse : List Char → Option JObj) (text : List Char) (remove : Bool),
      (codeFenceSearch text = none → findBalancedBracesBlock text = none →
        extract_json_from_text parse text remove = (text, none, none)) ∧
      (∀ ms me g, codeFenceSearch text = some (ms, me, g) → pyStrip g = [] →
        findBalancedBracesBlock text = none →
        extract_json_from_text parse text remove = (text, none, none)) ∧
      (∀ ms me g, codeFenceSearch text = some (ms, me, g) → pyStrip g ≠ [] →
        extract_json_from_text parse text remove =
          ((if remove then pyStrip (text.take ms ++ text.drop me) else text),
           tryParse parse (pyStrip g), some (pyStrip g))) ∧
      (∀ s e, codeFenceSearch text = none →
        findBalancedBracesBlock text = some (s, e) →
        extract_json_from_text parse text remove =
          ((if remove then pyStrip (text.take s ++ text.drop e) else text),
           tryParse parse (pyStrip (pySlice text s e)),
           some (pyStrip (pySlice text s e)))) ∧
      (∀ ms me g s e, codeFenceSearch text = some (ms, me, g) →
        pyStrip g = [] → findBalancedBracesBlock text = some (s, e) →
        extract_json_from_text parse text remove =
          ((if remove then pyStrip (text.take s ++ text.drop e) else text),
           tryParse parse (pyStrip (pySlice text s e)),
           some (pyStrip (pySlice text s e)))) := by
  intro parse text remove
  by_cases ht : text = []
  · subst ht
    refine ⟨fun _ _ => rfl, ?_, ?_, ?_, ?_⟩
    · intro ms me g hf
      rw [show codeFenceSearch ([] : List Char) = none from rfl] at hf
      cases hf
    · intro ms me g hf
      rw [show codeFenceSearch ([] : List Char) = none from rfl] at hf
      cases hf
    · intro s e _ hb
      rw [show findBalancedBracesBlock ([] : List Char) = none from rfl] at hb
      cases hb
    · intro ms me g s e hf
      rw [show codeFenceSearch ([] : List Char) = none from rfl] at hf
      cases hf
  · refine ⟨?_, ?_, ?_, ?_, ?_⟩
    · intro hf hb
      simp [extract_json_from_text, ht, hf, bracesStage, hb]
    · intro ms me g hf hg hb
      simp [extract_json_from_text, ht, hf, hg, bracesStage, hb]
    · intro ms me g hf hg
      simp [extract_json_from_text, ht, hf, hg]
    · intro s e hf hb
      simp [extract_json_from_text, ht, hf, bracesStage, hb]
    · intro ms me g s e hf hg hb
      simp [extract_json_from_text, ht, hf, hg, bracesStage, hb]

/-- Witness for the amended C2 theorem at `exC2` (fence found at 6–21 with
body `\x7bbad`): the function commits to the fenced span. -/
theorem extract_json_from_text_strategy_spec_witness :
    extract_json_from_text parseNone exC2 true =
      (pyStrip (exC2.take 6 ++ exC2.drop 21),
       tryParse parseNone (pyStrip (' ' :: "\x7bbad".data)),
       some (pyStrip (' ' :: "\x7bbad".data))) := by
  have h := (extract_json_from_text_strategy_spec parseNone exC2 true).2.2.1
    6 21 (' ' :: "\x7bbad".data) (by decide) (by decide)
  simpa using h

/- ===== C3: extract_inline_pyjson ===== -/

/-- C3 counterexample: on the nested dict of `exC3` the matched span is cut
at the first closing brace (`\x7b"a": \x7b"b": 1\x7d`, not the full
balanced block `\x7b"a": \x7b"b": 1\x7d\x7d`), and although parsing fails
(`obj = none`) the span is still removed from the narrative, leaving
`"x \x7d y"`. -/
theorem extract_inline_pyjson_cx :
    extract_inline_pyjson parseNone exC3 true =
      ("x \x7d y".data, none, some "\x7b\"a\": \x7b\"b\": 1\x7d".data) ∧
    "x \x7d y".data ≠ exC3 ∧
    ("\x7b\"a\": \x7b\"b\": 1\x7d".data ≠
      "\x7b\"a\": \x7b\"b\": 1\x7d\x7d".data) :=
  ⟨by decide, by decide, by decide⟩

/-- C3 (amended): `extract_inline_pyjson` selects the span of the
non-greedy regex `\x7b[\s\S]*?\x7d` — from the first `\x7b` to the first
`\x7d` after it, so a block with nested braces is cut at the first closing
brace —, and when `remove_from_text` is set the matched span is removed
from the narrative regardless of whether parsing succeeds. -/
theorem extract_inline_pyjson_regex_spec :
    ∀ (parse : List Char → Option JObj) (text : List Char),
      (pydictSearch text = none →
        extract_inline_pyjson parse text true = (text, none, none)) ∧
      (∀ s e, pydictSearch text = some (s, e) →
        charAt text s = some lbrace ∧
        charAt text (e - 1) = some rbrace ∧
        (∀ k, s ≤ k → k + 1 < e → charAt text k ≠ some rbrace) ∧
        extract_inline_pyjson parse text true =
          (pyStrip (text.take s ++ text.drop e),
           parse (normalizeInlinePy (pyStrip (pySlice text s e))),
           some (pyStrip (pySlice text s e)))) := by
  intro parse text
  constructor
  · intro h
    by_cases ht : text = []
    · subst ht; rfl
    · simp [extract_inline_pyjson, ht, h]
  · intro s e h0
    have ht : text ≠ [] := by
      rintro rfl
      rw [show pydictSearch ([] : List Char) = none from rfl] at h0
      cases h0
    have h := h0
    unfold pydictSearch at h
    cases hf : findSubFrom [lbrace] text with
    | none => simp only [hf] at h; exact Option.noConfusion h
    | some i =>
      simp only [hf] at h
      cases hg : findSubGe [rbrace] text (i + 1) with
      | none => simp only [hg] at h; exact Option.noConfusion h
      | some j =>
        simp only [hg, Option.some.injEq, Prod.mk.injEq] at h
        obtain ⟨hs, he⟩ := h
        subst hs; subst he
        obtain ⟨hij, hjpre, hjnone⟩ := findSubGe_some [rbrace] text (i + 1) j hg
        refine ⟨charAt_of_findSub_single lbrace text i hf, ?_, ?_, ?_⟩
        · have hj : j + 1 - 1 = j := by omega
          rw [hj]
          exact (singleIsPre rbrace (text.drop j)).mp hjpre
        · intro k hk1 hk2 hcon
          by_cases hki : k = i
          · subst hki
            have hcl := charAt_of_findSub_single lbrace text k hf
            rw [hcl] at hcon
            have hlr : lbrace = rbrace := by injection hcon
            exact absurd hlr (by decide)
          · have hk1' : i + 1 ≤ k := by omega
            have hfalse := hjnone k hk1' (by omega)
            have : [rbrace].isPrefixOf (text.drop k) = true :=
              (singleIsPre rbrace (text.drop k)).mpr hcon
            rw [hfalse] at this
            cases this
        · simp [extract_inline_pyjson, ht, h0]

/-- Witness for the amended C3 theorem at `exC3` (span 2–16). -/
theorem extract_inline_pyjson_regex_spec_witness :
    charAt exC3 2 = some lbrace ∧
    charAt exC3 15 = some rbrace ∧
    extract_inline_pyjson parseNone exC3 true =
      (pyStrip (exC3.take 2 ++ exC3.drop 16),
       parseNone (normalizeInlinePy (pyStrip (pySlice exC3 2 16))),
       some (pyStrip (pySlice exC3 2 16))) := by
  have h := ((extract_inline_pyjson_regex_spec parseNone exC3).2) 2 16 (by decide)
  exact ⟨h.1, by simpa using h.2.1, h.2.2.2⟩

/- ===== C4: trailing fenced block ===== -/

/-- C4 (code bug): `_extract_trailing_fenced_block` computes `closing` with
the same `rfind` call as `last_fence`, so the `closing == last_fence` guard
always fires and the extractor returns the no-match sentinel on EVERY input;
consequently `_split_text_and_trailing_matrix` on the claim's shape (a
trailing fenced block, no bracketed numeric rows) returns the whole text as
`question_text` and an empty matrix, instead of (`"Q"`, `"payload body"`) as
the claim states. -/
theorem trailingFencedBlock_dead :
    (∀ text : List Char, extractTrailingFencedBlock text = none) ∧
    splitTextAndTrailingMatrix exC4 12000 = (exC4, []) ∧
    (splitTextAndTrailingMatrix exC4 12000).2 ≠ "payload body".data ∧
    (splitTextAndTrailingMatrix exC4 12000).1 ≠ "Q".data := by
  refine ⟨?_, by decide, by decide, by decide⟩
  intro text
  unfold extractTrailingFencedBlock
  cases h : rfindSub fenceL text with
  | none => rfl
  | some lf => simp

/- ===== C5: extra links ===== -/

theorem dedupAux_not_mem_seen :
    ∀ (l : List (List Char)) (seen : List (List Char)) (x : List Char),
      x ∈ dedupAux seen l → x ∉ seen := by
  intro l
  induction l with
  | nil => intro seen x hx; cases hx
  | cons u rest ih =>
    intro seen x hx
    unfold dedupAux at hx
    by_cases hu : u ∈ seen
    · rw [if_pos hu] at hx
      exact ih seen x hx
    · rw [if_neg hu] at hx
      cases hx with
      | head => exact hu
      | tail _ hx' =>
        have := ih (u :: seen) x hx'
        exact fun hmem => this (List.mem_cons_of_mem u hmem)

theorem dedupAux_nodup :
    ∀ (l : List (List Char)) (seen : List (List Char)),
      (dedupAux seen l).Nodup := by
  intro l
  induction l with
  | nil => intro seen; exact List.nodup_nil
  | cons u rest ih =>
    intro seen
    unfold dedupAux
    by_cases hu : u ∈ seen
    · rw [if_pos hu]; exact ih seen
    · rw [if_neg hu]
      refine List.nodup_cons.mpr ⟨?_, ih (u :: seen)⟩
      intro hmem
      exact dedupAux_not_mem_seen rest (u :: seen) u hmem (List.mem_cons_self u seen)

theorem dedupAux_sublist :
    ∀ (l : List (List Char)) (seen : List (List Char)),
      (dedupAux seen l).Sublist l := by
  intro l
  induction l with
  | nil => intro seen; exact List.Sublist.refl []
  | cons u rest ih =>
    intro seen
    unfold dedupAux
    by_cases hu : u ∈ seen
    · rw [if_pos hu]; exact (ih seen).cons u
    · rw [if_neg hu]; exact (ih (u :: seen)).cons₂ u

/-- C5: for every post, the extra-links list (`urls[1:]` of
`on_channel_post`) is duplicate-free, preserves the relative order of the
collected URLs (it is a sublist of the collection), and excludes the first
URL; and the collection treats a direct `url` span by slicing + cleaning +
scheme repair, and a `text_link` by taking its target URL. -/
theorem extract_urls_extra_links_spec :
    ∀ (text : List Char) (ents : List TgEntity),
      ((extract_urls text ents).drop 1).Nodup ∧
      ((extract_urls text ents).drop 1).Sublist (collectUrls text ents) ∧
      (∀ u0, (extract_urls text ents).head? = some u0 →
        u0 ∉ (extract_urls text ents).drop 1) ∧
      (∀ off len, collectUrls text [TgEntity.url off len] =
        [cleanUrl (pySlice text off (off + len))]) ∧
      (∀ off len u, collectUrls text [TgEntity.textLink off len (some u)] =
        [pyReplace ['\n'] [] (pyStrip u)]) ∧
      cleanUrl ("ttps://a.b\n".data) = "https://a.b".data := by
  intro text ents
  have hnodup : (extract_urls text ents).Nodup := by
    unfold extract_urls
    split
    · exact List.nodup_nil
    · exact dedupAux_nodup _ []
  have hsub : (extract_urls text ents).Sublist (collectUrls text ents) := by
    unfold extract_urls
    split
    · exact List.nil_sublist _
    · exact dedupAux_sublist _ []
  refine ⟨?_, ?_, ?_, fun off len => rfl, fun off len u => rfl, by decide⟩
  · exact ((List.drop_sublist 1 _).nodup) hnodup
  · exact (List.drop_sublist 1 _).trans hsub
  · intro u0 hu0 hmem
    cases hurls : extract_urls text ents with
    | nil => rw [hurls] at hu0; cases hu0
    | cons a rest =>
      rw [hurls] at hu0 hmem
      have ha : a = u0 := by injection hu0
      subst ha
      rw [hurls] at hnodup
      exact (List.nodup_cons.mp hnodup).1 hmem

/-- Witness for C5 on a concrete post with a repairable URL, an exact
duplicate, and a second URL. -/
theorem extract_urls_extra_links_spec_witness :
    (extract_urls exC5text exC5ents).head? = some "https://a".data ∧
    "https://a".data ∉ (extract_urls exC5text exC5ents).drop 1 :=
  ⟨by decide,
   (extract_urls_extra_links_spec exC5text exC5ents).2.2.1 _ (by decide)⟩

/- ===== C6 / C10: dispatcher ===== -/

theorem mem_joinNL_infix :
    ∀ (l : List (List Char)) (a : List Char), a ∈ l → a <:+: joinNL l := by
  intro l
  induction l with
  | nil => intro a ha; cases ha
  | cons x rest ih =>
    intro a ha
    cases rest with
    | nil =>
      have hax : a = x := by simpa using ha
      subst hax
      exact List.infix_refl a
    | cons y t =>
      rcases List.mem_cons.mp ha with hax | hmem
      · subst hax
        exact ⟨[], '\n' :: joinNL (y :: t), by simp [joinNL]⟩
      · obtain ⟨s1, t1, hz⟩ := ih a hmem
        exact ⟨x ++ '\n' :: s1, t1, by simp [joinNL, ← hz]⟩

/-- C6 counterexample: even with `flag = True` and a configured secondary
group, the dispatched messages carry no interactive controls at all — the
primary send is `send_message(chat_id, text)` with no reply markup (the
source's own comment: "ללא כפתורים", i.e. without buttons) — so the primary
message does not carry the claimed accept/reject/cancel control set. -/
theorem send_text_with_button_cx :
    send_text_with_button 1 2 (fun _ => "n".data) "hi".data none (some true)
      none none = [OutMsg.mk 1 "hi".data []] ∧
    (OutMsg.mk 1 "hi".data [] : OutMsg).controls = [] :=
  ⟨by decide, rfl⟩

/-- C6 (amended): the dispatcher always sends the composed text to the
primary destination, unconditionally and independently of the actionability
flag — it is always the first message sent, for every flag value and in
both `process_urls` branches — but that primary message carries NO
interactive controls (the code sends it without buttons). -/
theorem send_text_with_button_always_primary :
    (∀ (tgt ugc : Int) (showNum : ℚ → List Char) (text : List Char)
        (orderRate : Option OrderPlan) (flag : Option Bool)
        (ij aj : Option JObj),
      ∃ rest, send_text_with_button tgt ugc showNum text orderRate flag ij aj =
        OutMsg.mk tgt text [] :: rest) ∧
    (∀ (tgt ugc : Int) (ask : Except (List Char) (List Char))
        (parse : List Char → Option JObj) (settings : Option JObj)
        (dumps : JObj → List Char) (showNum : ℚ → List Char)
        (urls : List (List Char)) (qt lt mt : List Char) (ij : Option JObj),
      ∃ t rest,
        (process_urls true tgt ugc ask parse settings dumps showNum
          urls qt lt mt ij).messages = OutMsg.mk tgt t [] :: rest) := by
  refine ⟨fun tgt ugc showNum text orderRate flag ij aj => ⟨_, rfl⟩, ?_⟩
  intro tgt ugc ask parse settings dumps showNum urls qt lt mt ij
  by_cases hu : urls = []
  · unfold process_urls
    rw [if_pos hu]
    exact ⟨_, _, rfl⟩
  · unfold process_urls
    rw [if_neg hu]
    exact ⟨_, _, rfl⟩

/-- C10: on a post with exactly one unique URL, the fetch list handed to
`process_urls` (`urls[1:]`) is empty, no AI-gateway call is made, and a
single error-described message is dispatched to the primary destination
(with no controls), still containing the matrix section and the
inline-JSON section when present. -/
theorem process_urls_single_url_no_ai :
    ∀ (text : List Char) (ents : List TgEntity) (tgt ugc : Int)
      (ask : Except (List Char) (List Char)) (parse : List Char → Option JObj)
      (settings : Option JObj) (dumps : JObj → List Char)
      (showNum : ℚ → List Char) (qt lt mt : List Char) (ij : Option JObj),
      (extract_urls text ents).length = 1 →
      (extract_urls text ents).drop 1 = [] ∧
      ((process_urls true tgt ugc ask parse settings dumps showNum
          ((extract_urls text ents).drop 1) qt lt mt ij).aiCalled = false ∧
        ∃ m, (process_urls true tgt ugc ask parse settings dumps showNum
            ((extract_urls text ents).drop 1) qt lt mt ij).messages = [m] ∧
          m.chatId = tgt ∧ m.controls = [] ∧
          errHeaderL <:+: m.text ∧
          (mt ≠ [] → mt <:+: m.text) ∧
          (jTruthy ij = true → jsonLblL <:+: m.text)) := by
  intro text ents tgt ugc ask parse settings dumps showNum qt lt mt ij hlen
  obtain ⟨a, ha⟩ := List.length_eq_one.mp hlen
  have hdrop : (extract_urls text ents).drop 1 = [] := by rw [ha]; rfl
  refine ⟨hdrop, ?_, ?_⟩
  · rw [hdrop]; rfl
  · rw [hdrop]
    refine ⟨OutMsg.mk tgt (joinNL (errParts mt ij dumps)) [],
      rfl, rfl, rfl, ?_, ?_, ?_⟩
    · exact mem_joinNL_infix _ _
        (List.mem_append_left _ (List.mem_append_left _ (by simp)))
    · intro hmt
      refine mem_joinNL_infix _ _ ?_
      refine List.mem_append_left _ (List.mem_append_right _ ?_)
      rw [if_pos hmt]
      simp
    · intro hij
      refine mem_joinNL_infix _ _ ?_
      refine List.mem_append_right _ ?_
      rw [if_pos hij]
      simp

/-- Witness for C10 on a concrete one-URL post with a matrix text and an
inline JSON object. -/
theorem process_urls_single_url_no_ai_witness :
    (extract_urls exC10text exC10ents).drop 1 = [] ∧
    ((process_urls true 1 2 (Except.ok "ans".data) parseNone none
        (fun _ => "X".data) (fun _ => "n".data)
        ((extract_urls exC10text exC10ents).drop 1)
        "q".data "l".data "1 2 3".data
        (some [("Last Rate".data, PVal.num 5)])).aiCalled = false ∧
      ∃ m, (process_urls true 1 2 (Except.ok "ans".data) parseNone none
          (fun _ => "X".data) (fun _ => "n".data)
          ((extract_urls exC10text exC10ents).drop 1)
          "q".data "l".data "1 2 3".data
          (some [("Last Rate".data, PVal.num 5)])).messages = [m] ∧
        m.chatId = 1 ∧ m.controls = [] ∧
        errHeaderL <:+: m.text ∧
        ("1 2 3".data ≠ [] → "1 2 3".data <:+: m.text) ∧
        (jTruthy (some [("Last Rate".data, PVal.num 5)]) = true →
          jsonLblL <:+: m.text)) :=
  process_urls_single_url_no_ai exC10text exC10ents 1 2
    (Except.ok "ans".data) parseNone none (fun _ => "X".data)
    (fun _ => "n".data) "q".data "l".data "1 2 3".data
    (some [("Last Rate".data, PVal.num 5)]) (by decide)

/- ===== C7: per-source failure semantics ===== -/

theorem getDecidePath_len (addr : List Char) (o : UrlOracle) (mi : Nat) :
    ∀ items, getDecidePath addr o mi = some items → items.length ≤ 1 := by
  intro items h
  unfold getDecidePath at h
  cases hg : o.getResult with
  | none => simp only [hg] at h; exact Option.noConfusion h
  | some pr =>
    obtain ⟨data, ct0⟩ := pr
    simp only [hg] at h
    split at h
    · cases hu : o.uploadResult with
      | none => simp only [hu] at h; exact Option.noConfusion h
      | some fid =>
        simp only [hu, Option.some.injEq] at h
        subst h; simp
    · split at h
      · cases hc : o.convertResult with
        | none =>
          simp only [hc, Option.some.injEq] at h
          subst h; simp
        | some pdf =>
          cases hu : o.uploadResult with
          | none => simp only [hc, hu] at h; exact Option.noConfusion h
          | some fid =>
            simp only [hc, hu, Option.some.injEq] at h
            subst h; simp
      · simp only [Option.some.injEq] at h
        subst h; simp

theorem headInformedPath_len (addr : List Char) (o : UrlOracle) (mi : Nat)
    (isPdf isHtml : Bool) :
    (headInformedPath addr o mi isPdf isHtml).length ≤ 1 := by
  unfold headInformedPath
  split
  · cases o.getResult with
    | none => simp
    | some _ =>
      cases o.uploadResult with
      | none => simp
      | some fid => simp
  · split
    · cases o.getResult with
      | none => simp
      | some _ =>
        cases o.convertResult with
        | none => simp
        | some _ =>
          cases o.uploadResult with
          | none => simp
          | some _ => simp
    · simp

theorem processUrlSource_len (addr : List Char) (o : UrlOracle) (mi : Nat) :
    (processUrlSource addr o mi).length ≤ 1 := by
  simp only [processUrlSource]
  split
  · cases hd : getDecidePath addr o mi with
    | none => simp only [hd]; exact headInformedPath_len _ _ _ _ _
    | some items => simp only [hd]; exact getDecidePath_len addr o mi items hd
  · exact headInformedPath_len _ _ _ _ _

theorem resolveSources_all_urls_ok (mi : Nat) :
    ∀ sources : List AskSource, (∀ s ∈ sources, s.isUrl = true) →
      ∃ items, resolveSources mi sources = .ok items := by
  intro sources
  induction sources with
  | nil => intro _; exact ⟨[], rfl⟩
  | cons s rest ih =>
    intro hall
    obtain ⟨items, hitems⟩ := ih fun x hx => hall x (List.mem_cons_of_mem _ hx)
    cases s with
    | url addr o =>
      refine ⟨processUrlSource addr o mi ++ items, ?_⟩
      simp only [resolveSources, processSource, hitems]
    | localFile path o =>
      have := hall _ (List.mem_cons_self _ _)
      simp [AskSource.isUrl] at this

/-- C7 counterexample: a missing local-path source raises
`FileNotFoundError` and aborts the whole call — the completion is never
invoked even though the next source (a healthy URL) would have produced
content; the same call without the local source proceeds and returns the
completion's answer. -/
theorem ask_with_sources_local_abort_cx :
    ask_with_sources (some "PROMPT".data) (some "Q".data) exCompletion
      [exBadLocal, exGoodUrl] 40000 = .error PyExc.fileNotFound ∧
    ask_with_sources (some "PROMPT".data) (some "Q".data) exCompletion
      [exGoodUrl] 40000 = .ok "ANSWER".data ∧
    (Except.error PyExc.fileNotFound ≠
      (Except.ok "ANSWER".data : Except PyExc (List Char))) :=
  ⟨rfl, rfl, fun h => Except.noConfusion h⟩

/-- C7 (amended): for REMOTE URL sources the claim holds — every
classification/fetch/convert/upload failure is caught, the source degrades
to at most one item (an upload or a truncated inline text) or is omitted,
and with a prompt and question present the completion call still proceeds
over the surviving items.  A LOCAL path source, however, re-raises its
failures (missing file, read error, upload error) and aborts the whole
call, as the counterexample shows. -/
theorem ask_with_sources_url_resilient :
    ∀ (p q : List Char)
      (completion : List ContentItem → Except PyExc (List Char))
      (sources : List AskSource) (maxInline : Nat),
      p ≠ [] → q ≠ [] →
      (∀ s ∈ sources, s.isUrl = true) →
      (∃ items, resolveSources maxInline sources = .ok items ∧
        ask_with_sources (some p) (some q) completion sources maxInline =
          completion (ContentItem.text q :: items)) ∧
      (∀ addr o, (processUrlSource addr o maxInline).length ≤ 1) := by
  intro p q completion sources maxInline hp hq hall
  refine ⟨?_, fun addr o => processUrlSource_len addr o maxInline⟩
  obtain ⟨items, hitems⟩ := resolveSources_all_urls_ok maxInline sources hall
  refine ⟨items, hitems, ?_⟩
  simp only [ask_with_sources, hitems]
  rw [if_neg hp, if_neg hq]
  simp

/-- Witness for the amended C7 theorem: one completely failing URL source
followed by one healthy URL source; the failing one is omitted and the
completion call proceeds. -/
theorem ask_with_sources_url_resilient_witness :
    ∃ items, resolveSources 40000 [exFailUrl, exGoodUrl] = .ok items ∧
      ask_with_sources (some "PROMPT".data) (some "Q".data) exCompletion
        [exFailUrl, exGoodUrl] 40000 =
        exCompletion (ContentItem.text "Q".data :: items) :=
  (ask_with_sources_url_resilient "PROMPT".data "Q".data exCompletion
    [exFailUrl, exGoodUrl] 40000 (by decide) (by decide) (by decide)).1

/- ===== C9: temp-file cleanup ===== -/

/-- C9 counterexample: with pdfkit installed but its conversion failing and
WeasyPrint absent, the conversion attempt leaks both its pre-created output
placeholder and the intermediate HTML temp file — they are never removed
and never reach `temps_to_cleanup`, even on an otherwise successful call. -/
theorem leakedTempFiles_cx :
    leakedTempFiles true false false false true =
      [TempFile.outPdf1, TempFile.htmlTmp] ∧
    leakedTempFiles true false false false true ≠ [] :=
  ⟨by decide, by decide⟩

/-- C9 (amended): the leak set is independent of whether the completion
call succeeds or raises (the `finally` cleanup runs on every exit path and
deletes everything registered in `temps_to_cleanup`, and the pdfkit success
path deletes its intermediate HTML); but a FAILED conversion attempt leaks
its artifacts: a failing pdfkit run leaks its output placeholder and the
intermediate HTML, and a failing WeasyPrint run leaks its output
placeholder. -/
theorem tempCleanup_characterization :
    ∀ p k w kw c : Bool,
      leakedTempFiles p k w kw c = leakedTempFiles p k w kw true ∧
      leakedTempFiles p k w kw c =
        (if p ∧ ¬ k then [TempFile.outPdf1, TempFile.htmlTmp] else [])
        ++ (if (¬ (p ∧ k)) ∧ w ∧ ¬ kw then [TempFile.outPdf2] else []) := by
  intro p k w kw c
  cases p <;> cases k <;> cases w <;> cases kw <;> cases c <;>
    exact ⟨by decide, by decide⟩
